import Mathlib

/-!
Verification of the slcan (LAWICEL serial-line CAN) codec and session layer.

The definitions below are a shallow embedding of `slcan.js`:
* `packFrame` embeds `slcan.prototype._packFrame`,
* `parseFrame` embeds `slcan.prototype._parseFrame`,
* `send` embeds `slcan.prototype.send` (together with `_serialWrite`),
* `serialRecvCallback` embeds `slcan.prototype._serialRecvCallback`.

Lines of text are modelled as `List Char`.  JavaScript number/string
conversions used by the source (`Number("0x" + s)`, `Number(s)` on a
one-character slice, `n.toString(16)`, `n.toString()`, `substr`,
`toUpperCase`) are embedded by the `js...` helpers, including the
JavaScript quirks the source relies on: `Number("")` is `0`,
whitespace-only strings convert to `0`, and `Number` trims trailing
whitespace before parsing a `0x`-prefixed literal.

A thrown JavaScript exception is modelled as `Except.error`; the
distinguished `ParseErr.jsTypeError` constructor stands for the runtime
`TypeError` raised when `str[0]` is `undefined` (empty input line) and
`str[0].charCodeAt(0)` is evaluated.
-/

namespace canbus

/-- Characters treated as whitespace by JavaScript string-to-number
conversion (the ASCII ones; the source never meets the Unicode ones). -/
def jsWhitespace (c : Char) : Bool :=
  c == ' ' || c == '\t' || c == '\n' || c == '\r' || c == '\x0b' || c == '\x0c'

/-- Remove trailing whitespace, as JavaScript `Number` trimming does on the
right end of `"0x" ++ s` (the left end is the non-whitespace `'0'`). -/
def dropTrailingWs (s : List Char) : List Char :=
  (s.reverse.dropWhile jsWhitespace).reverse

/-- Value of one hexadecimal digit character, either case. -/
def hexCharVal (c : Char) : Option Nat :=
  if '0' ≤ c ∧ c ≤ '9' then some (c.toNat - 48)
  else if 'a' ≤ c ∧ c ≤ 'f' then some (c.toNat - 87)
  else if 'A' ≤ c ∧ c ≤ 'F' then some (c.toNat - 55)
  else none

/-- Left-to-right accumulation of hexadecimal digits; `none` on the first
non-hex character. -/
def hexValAux (acc : Nat) : List Char → Option Nat
  | [] => some acc
  | c :: cs =>
    match hexCharVal c with
    | none => none
    | some d => hexValAux (16 * acc + d) cs

/-- JavaScript `Number("0x" ++ s)`: trailing whitespace is trimmed, the
empty digit string is `NaN`, otherwise every character must be a hex
digit.  `none` models `NaN`. -/
def jsHexNumber (s : List Char) : Option Nat :=
  let t := dropTrailingWs s
  if t = [] then none else hexValAux 0 t

/-- Value of one decimal digit character. -/
def decDigitVal (c : Char) : Option Nat :=
  if '0' ≤ c ∧ c ≤ '9' then some (c.toNat - 48) else none

/-- JavaScript `Number(s)` for the strings of length at most one produced
by `substr(pos, 1)`: `Number("")` is `0`, a whitespace character converts
to `0`, a decimal digit to its value, anything else to `NaN` (`none`).
The final catch-all case is never reached on `substr(pos, 1)` output. -/
def jsDecNumber1 (s : List Char) : Option Nat :=
  match s with
  | [] => some 0
  | [c] => if jsWhitespace c then some 0 else decDigitVal c
  | _ => none

/-- Digit character used by JavaScript `toString` in bases up to 16. -/
def hexDigitChar (d : Nat) : Char :=
  if d < 10 then Char.ofNat (48 + d) else Char.ofNat (87 + d)

/-- Fuelled base-16 digit expansion; `jsToHex` supplies sufficient fuel. -/
def jsToHexCore : Nat → Nat → List Char
  | _, 0 => []
  | n, fuel + 1 =>
    if n < 16 then [hexDigitChar n]
    else jsToHexCore (n / 16) fuel ++ [hexDigitChar (n % 16)]

/-- JavaScript `n.toString(16)` for a natural number: lowercase hex digits,
no leading zeros, `"0"` for zero. -/
def jsToHex (n : Nat) : List Char :=
  jsToHexCore n (n + 1)

/-- Fuelled base-10 digit expansion; `jsToDec` supplies sufficient fuel. -/
def jsToDecCore : Nat → Nat → List Char
  | _, 0 => []
  | n, fuel + 1 =>
    if n < 10 then [hexDigitChar n]
    else jsToDecCore (n / 10) fuel ++ [hexDigitChar (n % 10)]

/-- JavaScript `n.toString()` for a natural number. -/
def jsToDec (n : Nat) : List Char :=
  jsToDecCore n (n + 1)

/-- Length in characters of a standard CAN identifier (`slcan.STD_ID_LEN`). -/
def STD_ID_LEN : Nat := 3

/-- Length in characters of an extended CAN identifier (`slcan.EXT_ID_LEN`). -/
def EXT_ID_LEN : Nat := 8

/-- The bus-open command string `CMD_OPEN_BUS = "O\r"`. -/
def CMD_OPEN_BUS : List Char := ['O', '\r']

/-- Modelled from the spec: the `canbus.frame` value type (its defining
file `frame.js` is required by `slcan.js` but absent from the sources).
Per the spec's data model it carries `id`, `is_ext_id`, `is_remote`,
`dlc`, `data` and `timestamp`.  The extra field `id_ext_id` models the
property dynamically added to the JavaScript object by the assignment
`res.id_ext_id = is_ext_id` in `_parseFrame` (note the spelling):
`none` when the property was never assigned. -/
structure Frame where
  id : Nat
  is_ext_id : Bool
  is_remote : Bool
  dlc : Nat
  data : List Nat
  timestamp : Option Nat
  id_ext_id : Option Bool
deriving DecidableEq, Repr

/-- Modelled from the spec: `new frame(id)` constructs a standard
(`is_ext_id = false`) data (`is_remote = false`) frame with the given
identifier, no data and no timestamp. -/
def frameNew (idv : Nat) : Frame :=
  { id := idv, is_ext_id := false, is_remote := false, dlc := 0,
    data := [], timestamp := none, id_ext_id := none }

/-- Two-character encoding of one data byte in `_packFrame`:
`("0" + b.toString(16).toUpperCase()).substr(len - 2)`. -/
def encByte (b : Nat) : List Char :=
  let byte_str := '0' :: (jsToHex b).map Char.toUpper
  byte_str.drop (byte_str.length - 2)

/-- Concatenation of the byte encodings, i.e. the data portion built by
the `for (var i = 0; i < frame.dlc; i++)` loop in `_packFrame`. -/
def encBytes : List Nat → List Char
  | [] => []
  | b :: bs => encByte b ++ encBytes bs

/-- Embedding of `slcan.prototype._packFrame`.  Returns the frame after
the call (the source mutates `frame.dlc`) together with the packed line.
The type character is `'t'`/`'r'`, uppercased for an extended identifier;
the identifier is `"0000000" + id.toString(16)` cut to its last
`STD_ID_LEN`/`EXT_ID_LEN` characters and uppercased; the recomputed `dlc`
is `data.length` clamped to 8; the first `dlc` data bytes follow as two
hex characters each; the line ends with a carriage return. -/
def packFrame (f : Frame) : Frame × List Char :=
  let res0 : Char := if f.is_remote then 'r' else 't'
  let res1 : Char := if f.is_ext_id then res0.toUpper else res0
  let id_str : List Char := List.replicate 7 '0' ++ jsToHex f.id
  let idf : List Char :=
    if f.is_ext_id then (id_str.drop (id_str.length - EXT_ID_LEN)).map Char.toUpper
    else (id_str.drop (id_str.length - STD_ID_LEN)).map Char.toUpper
  let dlc : Nat := if f.data.length > 8 then 8 else f.data.length
  let f' : Frame := { f with dlc := dlc }
  (f', res1 :: idf ++ jsToDec dlc ++ encBytes (f.data.take dlc) ++ ['\r'])

/-- Errors thrown by `_parseFrame`.  The first five stand for the thrown
strings of the source (`"Open Failed! (Bus already open?)"`,
`"Invalid slcand frame! (bad frame type char) ..."` with its diagnostic
dump of the offending line, `"Invalid ID value"`, `"Invalid DLC value"`,
`"Invalid data byte at position i"`); `jsTypeError` stands for the
runtime `TypeError` raised on an empty line when `str[0].charCodeAt(0)`
is evaluated on `undefined`. -/
inductive ParseErr where
  | openFailed : ParseErr
  | badFrameType : List Char → ParseErr
  | invalidId : ParseErr
  | invalidDLC : ParseErr
  | invalidDataByte : Nat → ParseErr
  | jsTypeError : ParseErr
deriving DecidableEq, Repr

/-- The data-byte loop of `_parseFrame`: reads the `n` bytes at indices
`i, i+1, ...`, each from the two characters at
`2 + idLen + index * 2`. -/
def readBytes (str : List Char) (idLen i : Nat) : Nat → Except ParseErr (List Nat)
  | 0 => .ok []
  | n + 1 =>
    match jsHexNumber ((str.drop (2 + idLen + i * 2)).take 2) with
    | none => .error (.invalidDataByte i)
    | some b =>
      match readBytes str idLen (i + 1) n with
      | .error e => .error e
      | .ok rest => .ok (b :: rest)

/-- The frame-type classification chain at the top of `_parseFrame`:
`str` is the whole line (used in the diagnostic error), `c` its first
character.  On a BEL that is not an open-failure the source falls
through with `is_ext_id` and `is_remote` left `undefined`; since every
later use of them treats `undefined` as falsy this is embedded as
`(false, false)`. -/
def frameType (lastCMD : Option (List Char)) (str : List Char) (c : Char) :
    Except ParseErr (Bool × Bool) :=
  if c = 't' then .ok (false, false)
  else if c = 'r' then .ok (false, true)
  else if c = 'T' then .ok (true, false)
  else if c = 'R' then .ok (true, true)
  else if c.toNat = 7 then
    if lastCMD = some CMD_OPEN_BUS then .error .openFailed
    else .ok (false, false)
  else .error (.badFrameType str)

/-- Embedding of `slcan.prototype._parseFrame`.  `lastCMD` is the value
of `this._lastCMD`.  An empty line raises the JavaScript `TypeError`
(`str[0]` is `undefined`).  The first character is classified by
`frameType`; the identifier is the next 3 or 8 characters parsed as hex,
the DLC the single following character parsed as a decimal number and
required to be at most 8, then the data bytes are read.  The returned
object is `new frame(id)` with `is_remote`, `dlc`, `data` assigned —
and, through the source's misspelled assignment, the stray property
`id_ext_id` instead of `is_ext_id`. -/
def parseFrame (lastCMD : Option (List Char)) (str : List Char) :
    Except ParseErr Frame :=
  match str with
  | [] => .error .jsTypeError
  | c :: _ =>
    match frameType lastCMD str c with
    | .error e => .error e
    | .ok (is_ext_id, is_remote) =>
      let idLen : Nat := if is_ext_id then EXT_ID_LEN else STD_ID_LEN
      match jsHexNumber ((str.drop 1).take idLen) with
      | none => .error .invalidId
      | some idv =>
        match jsDecNumber1 ((str.drop (1 + idLen)).take 1) with
        | none => .error .invalidDLC
        | some dlc =>
          if dlc > 8 then .error .invalidDLC
          else
            match readBytes str idLen 0 dlc with
            | .error e => .error e
            | .ok data =>
              .ok { frameNew idv with
                    id_ext_id := some is_ext_id,
                    is_remote := is_remote,
                    dlc := dlc,
                    data := data }

/-- The fields of an `slcan` object that make up the session state:
`_dev_str`, `_speed`, `_conn` (the transport handle, abstracted),
`_recv_count`, `_recv_str`, `_lastCMD`. -/
structure SessionState where
  dev_str : List Char
  speed : Nat
  conn : Option Unit
  recv_count : Nat
  recv_str : List Char
  lastCMD : Option (List Char)
deriving DecidableEq, Repr

/-- The string thrown by `send` when no connection exists. -/
def NOT_CONNECTED : List Char := "Not connected to serial device".toList

/-- Observable outcome of one `send` call: the session state afterwards,
the argument frame afterwards (`_packFrame` mutates its `dlc`), the
lines written to the transport, and the thrown string, if any. -/
structure SendResult where
  state : SessionState
  frame : Frame
  writes : List (List Char)
  err : Option (List Char)
deriving DecidableEq, Repr

/-- Embedding of `slcan.prototype.send` together with `_serialWrite`:
without a connection it throws `NOT_CONNECTED` before doing anything
else; otherwise it packs the frame and writes the line, recording it in
`_lastCMD`. -/
def send (st : SessionState) (f : Frame) : SendResult :=
  match st.conn with
  | none => { state := st, frame := f, writes := [], err := some NOT_CONNECTED }
  | some _ =>
    let packed := packFrame f
    { state := { st with lastCMD := some packed.2 },
      frame := packed.1,
      writes := [packed.2],
      err := none }

/-- Embedding of `slcan.prototype._serialRecvCallback`: parse the line;
on success stamp `timestamp` with the current time and invoke the
receive callback with the frame; on a thrown error log it and drop the
line.  The first component lists the callback invocations, the second
the logged errors. -/
def serialRecvCallback (lastCMD : Option (List Char)) (now : Nat)
    (line : List Char) : List Frame × List ParseErr :=
  match parseFrame lastCMD line with
  | .ok f => ([{ f with timestamp := some now }], [])
  | .error e => ([], [e])


theorem jsToHexCore_eq_jsToHex : ∀ fuel n, n < fuel → jsToHexCore n fuel = jsToHex n := by
  intro fuel
  induction fuel using Nat.strong_induction_on with
  | _ fuel ih =>
    intro n hn
    cases fuel with
    | zero => omega
    | succ fuel =>
      by_cases h16 : n < 16
      · simp [jsToHexCore, jsToHex, h16]
      · have hdiv : n / 16 < n := Nat.div_lt_self (by omega) (by omega)
        have h1 : jsToHexCore n (fuel + 1) =
            jsToHexCore (n / 16) fuel ++ [hexDigitChar (n % 16)] := by
          simp [jsToHexCore, h16]
        have h2 : jsToHexCore n (n + 1) =
            jsToHexCore (n / 16) n ++ [hexDigitChar (n % 16)] := by
          simp [jsToHexCore, h16]
        have h3 : jsToHexCore (n / 16) fuel = jsToHex (n / 16) :=
          ih fuel (by omega) (n / 16) (by omega)
        have h4 : jsToHexCore (n / 16) n = jsToHex (n / 16) :=
          ih n hn (n / 16) hdiv
        rw [jsToHex, h1, h2, h3, h4]

theorem jsToHex_eq (n : Nat) :
    jsToHex n = if n < 16 then [hexDigitChar n]
                else jsToHex (n / 16) ++ [hexDigitChar (n % 16)] := by
  by_cases h16 : n < 16
  · simp [jsToHex, jsToHexCore, h16]
  · have hdiv : n / 16 < n := Nat.div_lt_self (by omega) (by omega)
    rw [if_neg h16, show jsToHex n = jsToHexCore n (n + 1) from rfl]
    have h2 : jsToHexCore n (n + 1) =
        jsToHexCore (n / 16) n ++ [hexDigitChar (n % 16)] := by
      simp [jsToHexCore, h16]
    rw [h2, jsToHexCore_eq_jsToHex n (n / 16) hdiv]

theorem jsToDec_digit (n : Nat) (h : n < 10) : jsToDec n = [hexDigitChar n] := by
  simp [jsToDec, jsToDecCore, h]

theorem jsToHex_ne_nil (n : Nat) : jsToHex n ≠ [] := by
  rw [jsToHex_eq]
  split <;> simp

theorem jsToHex_length_pos (n : Nat) : 1 ≤ (jsToHex n).length := by
  cases h : jsToHex n with
  | nil => exact absurd h (jsToHex_ne_nil n)
  | cons a l => simp

theorem jsToHex_chars : ∀ n, ∀ c ∈ jsToHex n, ∃ d, d < 16 ∧ c = hexDigitChar d := by
  intro n
  induction n using Nat.strong_induction_on with
  | _ n ih =>
    intro c hc
    rw [jsToHex_eq] at hc
    by_cases h16 : n < 16
    · rw [if_pos h16] at hc
      simp only [List.mem_singleton] at hc
      exact ⟨n, h16, hc⟩
    · rw [if_neg h16] at hc
      rcases List.mem_append.mp hc with hc1 | hc2
      · exact ih (n / 16) (Nat.div_lt_self (by omega) (by omega)) c hc1
      · simp only [List.mem_singleton] at hc2
        exact ⟨n % 16, Nat.mod_lt _ (by omega), hc2⟩

theorem jsToHex_length_le : ∀ k n, 0 < k → n < 16 ^ k → (jsToHex n).length ≤ k := by
  intro k
  induction k using Nat.strong_induction_on with
  | _ k ih =>
    intro n hk hn
    rw [jsToHex_eq]
    by_cases h16 : n < 16
    · rw [if_pos h16]
      simp only [List.length_singleton]
      omega
    · rw [if_neg h16]
      have hk2 : 2 ≤ k := by
        by_contra hcon
        have : k = 1 := by omega
        subst this
        simp [pow_one] at hn
        omega
      have hdivlt : n / 16 < 16 ^ (k - 1) := by
        have h16k : 16 ^ k = 16 ^ (k - 1) * 16 := by
          conv_lhs => rw [show k = (k - 1) + 1 by omega]
          rw [pow_succ]
        exact Nat.div_lt_of_lt_mul (by omega)
      have := ih (k - 1) (by omega) (n / 16) (by omega) hdivlt
      simp [List.length_append]
      omega

theorem jsToHex_length_ge_two (n : Nat) (h : 16 ≤ n) : 2 ≤ (jsToHex n).length := by
  rw [jsToHex_eq, if_neg (by omega)]
  have := jsToHex_length_pos (n / 16)
  simp only [List.length_append, List.length_singleton]
  omega

theorem hexValAux_append (s t : List Char) : ∀ acc,
    hexValAux acc (s ++ t) =
      (hexValAux acc s).bind (fun a => hexValAux a t) := by
  induction s with
  | nil => intro acc; simp [hexValAux]
  | cons c cs ih =>
    intro acc
    simp only [List.cons_append, hexValAux]
    cases hexCharVal c with
    | none => simp
    | some d => simp [ih]

theorem hexCharVal_upper_digit : ∀ d, d < 16 →
    hexCharVal (Char.toUpper (hexDigitChar d)) = some d := by decide

theorem ws_upper_digit : ∀ d, d < 16 →
    jsWhitespace (Char.toUpper (hexDigitChar d)) = false := by decide

theorem ws_digit : ∀ d, d < 16 → jsWhitespace (hexDigitChar d) = false := by decide

theorem decVal_digit : ∀ d, d < 10 → decDigitVal (hexDigitChar d) = some d := by decide

theorem hexValAux_upper_toHex : ∀ n acc,
    hexValAux acc ((jsToHex n).map Char.toUpper) =
      some (acc * 16 ^ (jsToHex n).length + n) := by
  intro n
  induction n using Nat.strong_induction_on with
  | _ n ih =>
    intro acc
    rw [jsToHex_eq]
    by_cases h16 : n < 16
    · rw [if_pos h16]
      simp only [List.map_cons, List.map_nil, hexValAux,
        hexCharVal_upper_digit n h16, List.length_singleton, pow_one]
      ring_nf
    · rw [if_neg h16]
      have hdiv : n / 16 < n := Nat.div_lt_self (by omega) (by omega)
      rw [List.map_append, hexValAux_append]
      rw [ih (n / 16) hdiv acc]
      simp only [Option.bind_some, List.map_cons, List.map_nil, hexValAux,
        hexCharVal_upper_digit (n % 16) (Nat.mod_lt _ (by omega))]
      rw [List.length_append, List.length_singleton, pow_succ, ← mul_assoc]
      generalize acc * 16 ^ (jsToHex (n / 16)).length = q
      simp only [Option.some_bind, Option.some.injEq]
      omega

theorem hexValAux_replicate_zero : ∀ k (s : List Char),
    hexValAux 0 (List.replicate k '0' ++ s) = hexValAux 0 s := by
  intro k
  induction k with
  | zero => intro s; simp
  | succ k ih =>
    intro s
    rw [List.replicate_succ, List.cons_append]
    show hexValAux 0 ('0' :: (List.replicate k '0' ++ s)) = hexValAux 0 s
    simp only [hexValAux, show hexCharVal '0' = some 0 from rfl]
    simpa using ih s

theorem dropTrailingWs_eq_self (s : List Char)
    (h : ∀ c ∈ s, jsWhitespace c = false) : dropTrailingWs s = s := by
  unfold dropTrailingWs
  cases hrev : s.reverse with
  | nil => simp_all
  | cons c t =>
    have hc : c ∈ s := by
      rw [← List.mem_reverse, hrev]
      exact List.mem_cons_self c t
    rw [List.dropWhile_cons, h c hc]
    simp only [Bool.false_eq_true, if_false]
    rw [← hrev, List.reverse_reverse]

theorem jsHexNumber_pad (m n : Nat) :
    jsHexNumber (List.replicate m '0' ++ (jsToHex n).map Char.toUpper) = some n := by
  have hws : ∀ c ∈ List.replicate m '0' ++ (jsToHex n).map Char.toUpper,
      jsWhitespace c = false := by
    intro c hc
    rcases List.mem_append.mp hc with h1 | h2
    · rw [List.eq_of_mem_replicate h1]; decide
    · rcases List.mem_map.mp h2 with ⟨a, ha, rfl⟩
      rcases jsToHex_chars n a ha with ⟨d, hd, rfl⟩
      exact ws_upper_digit d hd
  have hne : List.replicate m '0' ++ (jsToHex n).map Char.toUpper ≠ [] := by
    intro hcon
    rcases List.append_eq_nil.mp hcon with ⟨-, h2⟩
    exact jsToHex_ne_nil n (List.map_eq_nil_iff.mp h2)
  rw [jsHexNumber]
  simp only [dropTrailingWs_eq_self _ hws]
  rw [if_neg hne, hexValAux_replicate_zero, hexValAux_upper_toHex]
  simp


theorem encByte_length (b : Nat) : (encByte b).length = 2 := by
  show (('0' :: (jsToHex b).map Char.toUpper).drop
      (('0' :: (jsToHex b).map Char.toUpper).length - 2)).length = 2
  have h1 := jsToHex_length_pos b
  simp only [List.length_drop, List.length_cons, List.length_map]
  omega

theorem jsHexNumber_encByte (b : Nat) (hb : b < 256) :
    jsHexNumber (encByte b) = some b := by
  show jsHexNumber (('0' :: (jsToHex b).map Char.toUpper).drop
      (('0' :: (jsToHex b).map Char.toUpper).length - 2)) = some b
  have h1 := jsToHex_length_pos b
  have h2 : (jsToHex b).length ≤ 2 := jsToHex_length_le 2 b (by omega) (by omega)
  have h12 : (jsToHex b).length = 1 ∨ (jsToHex b).length = 2 := by omega
  rcases h12 with h | h
  · have hd : ('0' :: (jsToHex b).map Char.toUpper).length - 2 = 0 := by
      simp only [List.length_cons, List.length_map, h]
    rw [hd, List.drop_zero]
    have hrepl : ('0' :: (jsToHex b).map Char.toUpper) =
        List.replicate 1 '0' ++ (jsToHex b).map Char.toUpper := by simp
    rw [hrepl]
    exact jsHexNumber_pad 1 b
  · have hd : ('0' :: (jsToHex b).map Char.toUpper).length - 2 = 1 := by
      simp only [List.length_cons, List.length_map, h]
    rw [hd]
    have hdrop : ('0' :: (jsToHex b).map Char.toUpper).drop 1 =
        (jsToHex b).map Char.toUpper := rfl
    rw [hdrop]
    have hrepl : (jsToHex b).map Char.toUpper =
        List.replicate 0 '0' ++ (jsToHex b).map Char.toUpper := by simp
    rw [hrepl]
    exact jsHexNumber_pad 0 b

theorem encBytes_length (bs : List Nat) : (encBytes bs).length = 2 * bs.length := by
  induction bs with
  | nil => simp [encBytes]
  | cons b t ih =>
    simp only [encBytes, List.length_append, encByte_length, ih, List.length_cons]
    omega

theorem encBytes_window : ∀ (bs : List Nat) (k : Nat) (hk : k < bs.length)
    (suffix : List Char),
    ((encBytes bs ++ suffix).drop (2 * k)).take 2 = encByte (bs.get ⟨k, hk⟩) := by
  intro bs
  induction bs with
  | nil => intro k hk; simp at hk
  | cons b t ih =>
    intro k hk suffix
    cases k with
    | zero =>
      simp only [Nat.mul_zero, List.drop_zero, encBytes, List.append_assoc]
      rw [List.take_left' (encByte_length b)]
      rfl
    | succ k =>
      have h2 : 2 * (k + 1) = (encByte b).length + 2 * k := by
        rw [encByte_length]; omega
      simp only [encBytes, List.append_assoc]
      rw [h2, List.drop_append]
      exact ih k (by simpa using hk) suffix

theorem readBytes_ok : ∀ (bs : List Nat) (str : List Char) (idLen i : Nat),
    (∀ k (hk : k < bs.length),
        jsHexNumber ((str.drop (2 + idLen + (i + k) * 2)).take 2) =
          some (bs.get ⟨k, hk⟩)) →
    readBytes str idLen i bs.length = .ok bs := by
  intro bs
  induction bs with
  | nil => intro str idLen i h; rfl
  | cons b t ih =>
    intro str idLen i h
    show readBytes str idLen i (t.length + 1) = .ok (b :: t)
    rw [readBytes]
    have h0 : jsHexNumber ((str.drop (2 + idLen + i * 2)).take 2) = some b := by
      have := h 0 (by simp)
      simpa using this
    rw [h0]
    have ht : readBytes str idLen (i + 1) t.length = .ok t := by
      apply ih
      intro k hk
      have hkk : k + 1 < (b :: t).length := by simpa using Nat.succ_lt_succ hk
      have := h (k + 1) hkk
      have harith : i + (k + 1) = (i + 1) + k := by omega
      rw [harith] at this
      simpa using this
    rw [ht]

theorem readBytes_cases : ∀ (n : Nat) (str : List Char) (idLen i : Nat),
    (∃ l, readBytes str idLen i n = .ok l) ∨
      ∃ j, readBytes str idLen i n = .error (.invalidDataByte j) := by
  intro n
  induction n with
  | zero => intro str idLen i; exact Or.inl ⟨[], rfl⟩
  | succ n ih =>
    intro str idLen i
    rw [readBytes]
    cases hb : jsHexNumber ((str.drop (2 + idLen + i * 2)).take 2) with
    | none => exact Or.inr ⟨i, rfl⟩
    | some b =>
      rcases ih str idLen (i + 1) with ⟨l, hl⟩ | ⟨j, hj⟩
      · rw [hl]; exact Or.inl ⟨b :: l, rfl⟩
      · rw [hj]; exact Or.inr ⟨j, rfl⟩

theorem readBytes_congr : ∀ (n : Nat) (str extra : List Char) (idLen i : Nat),
    2 + idLen + (i + n) * 2 ≤ str.length →
    readBytes (str ++ extra) idLen i n = readBytes str idLen i n := by
  intro n
  induction n with
  | zero => intro str extra idLen i h; rfl
  | succ n ih =>
    intro str extra idLen i h
    have hw : ((str ++ extra).drop (2 + idLen + i * 2)).take 2 =
        (str.drop (2 + idLen + i * 2)).take 2 := by
      rw [List.drop_append_of_le_length (by omega)]
      rw [List.take_append_of_le_length (by simp [List.length_drop]; omega)]
    rw [readBytes, readBytes, hw]
    cases hb : jsHexNumber ((str.drop (2 + idLen + i * 2)).take 2) with
    | none => rfl
    | some b => rw [ih str extra idLen (i + 1) (by omega)]

theorem frameType_t (lastCMD : Option (List Char)) (s : List Char) :
    frameType lastCMD s 't' = .ok (false, false) := rfl

theorem frameType_r (lastCMD : Option (List Char)) (s : List Char) :
    frameType lastCMD s 'r' = .ok (false, true) := rfl

theorem frameType_T (lastCMD : Option (List Char)) (s : List Char) :
    frameType lastCMD s 'T' = .ok (true, false) := rfl

theorem frameType_R (lastCMD : Option (List Char)) (s : List Char) :
    frameType lastCMD s 'R' = .ok (true, true) := rfl

theorem toUpper_zero : Char.toUpper '0' = '0' := rfl

theorem packFrame_line (f : Frame)
    (hid : (jsToHex f.id).length ≤ if f.is_ext_id then EXT_ID_LEN else STD_ID_LEN)
    (hlen : f.data.length ≤ 8) :
    (packFrame f).2 =
      (if f.is_ext_id then (if f.is_remote then 'r' else 't').toUpper
       else (if f.is_remote then 'r' else 't')) ::
      ((List.replicate ((if f.is_ext_id then EXT_ID_LEN else STD_ID_LEN)
            - (jsToHex f.id).length) '0' ++ (jsToHex f.id).map Char.toUpper)
        ++ ([hexDigitChar f.data.length]
        ++ (encBytes f.data ++ ['\r']))) := by
  have hpos := jsToHex_length_pos f.id
  have hnotgt : ¬ f.data.length > 8 := by omega
  have hidf : ∀ w, 1 ≤ w → w ≤ 8 → (jsToHex f.id).length ≤ w →
      ((List.replicate 7 '0' ++ jsToHex f.id).drop
        ((List.replicate 7 '0' ++ jsToHex f.id).length - w)).map Char.toUpper =
      List.replicate (w - (jsToHex f.id).length) '0'
        ++ (jsToHex f.id).map Char.toUpper := by
    intro w hw1 hw8 hwl
    have hidstr_len : (List.replicate 7 '0' ++ jsToHex f.id).length =
        7 + (jsToHex f.id).length := by
      simp [List.length_append, List.length_replicate]
      omega
    rw [hidstr_len]
    rw [List.drop_append_of_le_length (by simp [List.length_replicate]; omega)]
    rw [List.drop_replicate]
    have harith : 7 - (7 + (jsToHex f.id).length - w) =
        w - (jsToHex f.id).length := by omega
    rw [harith, List.map_append, List.map_replicate, toUpper_zero]
  have htake : f.data.take f.data.length = f.data := List.take_length ..
  simp only [packFrame]
  rw [if_neg hnotgt, htake, jsToDec_digit _ (by omega)]
  cases hE : f.is_ext_id with
  | false =>
    rw [hE] at hid
    simp only [Bool.false_eq_true, if_false]
    rw [hidf STD_ID_LEN (by decide) (by decide) (by simpa using hid)]
    simp [List.cons_append, List.append_assoc]
  | true =>
    rw [hE] at hid
    simp only [if_true]
    rw [hidf EXT_ID_LEN (by decide) (by decide) (by simpa using hid)]
    simp [List.cons_append, List.append_assoc]

theorem parseFrame_structured (lastCMD : Option (List Char)) (c : Char)
    (e r : Bool) (idcs : List Char)
    (hidlen : idcs.length = if e then EXT_ID_LEN else STD_ID_LEN)
    (idv : Nat) (hidv : jsHexNumber idcs = some idv)
    (bytes : List Nat) (hblen : bytes.length ≤ 8)
    (hbytes : ∀ b ∈ bytes, b < 256)
    (hty : ∀ s, frameType lastCMD s c = .ok (e, r)) :
    parseFrame lastCMD
        (c :: (idcs ++ ([hexDigitChar bytes.length]
          ++ (encBytes bytes ++ ['\r'])))) =
      .ok { id := idv, is_ext_id := false, is_remote := r, dlc := bytes.length,
            data := bytes, timestamp := none, id_ext_id := some e } := by
  have hlen9 : bytes.length < 10 := by omega
  have hidwin : List.take (if e = true then EXT_ID_LEN else STD_ID_LEN)
      (List.drop 1 (c :: (idcs ++ ([hexDigitChar bytes.length]
        ++ (encBytes bytes ++ ['\r']))))) = idcs := by
    show List.take (if e = true then EXT_ID_LEN else STD_ID_LEN)
      (idcs ++ ([hexDigitChar bytes.length] ++ (encBytes bytes ++ ['\r']))) = idcs
    rw [← hidlen, List.take_left]
  have hdlcwin : List.take 1
      (List.drop (1 + if e = true then EXT_ID_LEN else STD_ID_LEN)
        (c :: (idcs ++ ([hexDigitChar bytes.length]
          ++ (encBytes bytes ++ ['\r']))))) = [hexDigitChar bytes.length] := by
    rw [Nat.add_comm 1 _, List.drop_succ_cons, ← hidlen, List.drop_left]
    rfl
  have hdlcval : jsDecNumber1 [hexDigitChar bytes.length] = some bytes.length := by
    simp only [jsDecNumber1, ws_digit bytes.length (by omega), Bool.false_eq_true,
      if_false, decVal_digit bytes.length hlen9]
  have htail : List.drop (2 + if e = true then EXT_ID_LEN else STD_ID_LEN)
      (c :: (idcs ++ ([hexDigitChar bytes.length]
        ++ (encBytes bytes ++ ['\r'])))) = encBytes bytes ++ ['\r'] := by
    have h2 : 2 + (if e = true then EXT_ID_LEN else STD_ID_LEN) =
        ((if e = true then EXT_ID_LEN else STD_ID_LEN) + 1) + 1 := by omega
    rw [h2, List.drop_succ_cons, ← hidlen, List.drop_append]
    rfl
  have hread : readBytes (c :: (idcs ++ ([hexDigitChar bytes.length]
        ++ (encBytes bytes ++ ['\r']))))
      (if e = true then EXT_ID_LEN else STD_ID_LEN) 0 bytes.length =
      .ok bytes := by
    apply readBytes_ok
    intro k hk
    have hdropk : List.drop
        (2 + (if e = true then EXT_ID_LEN else STD_ID_LEN) + (0 + k) * 2)
        (c :: (idcs ++ ([hexDigitChar bytes.length]
          ++ (encBytes bytes ++ ['\r'])))) =
        (encBytes bytes ++ ['\r']).drop (2 * k) := by
      rw [← List.drop_drop, htail]
      congr 1
      omega
    rw [hdropk, encBytes_window bytes k hk]
    exact jsHexNumber_encByte _ (hbytes _ (List.get_mem bytes k hk))
  have hnot8 : ¬ bytes.length > 8 := by omega
  simp only [parseFrame]
  rw [hty]
  simp only []
  rw [hidwin, hidv]
  simp only []
  rw [hdlcwin, hdlcval]
  simp only []
  rw [if_neg hnot8, hread]
  simp only []
  rfl

theorem toUpper_t : Char.toUpper 't' = 'T' := rfl

theorem toUpper_r : Char.toUpper 'r' = 'R' := rfl

theorem parse_pack (lastCMD : Option (List Char)) (f : Frame)
    (hid : f.id < 16 ^ (if f.is_ext_id then EXT_ID_LEN else STD_ID_LEN))
    (hlen : f.data.length ≤ 8)
    (hbytes : ∀ b ∈ f.data, b < 256) :
    parseFrame lastCMD (packFrame f).2 =
      .ok { id := f.id, is_ext_id := false, is_remote := f.is_remote,
            dlc := f.data.length, data := f.data, timestamp := none,
            id_ext_id := some f.is_ext_id } := by
  have hw : 0 < (if f.is_ext_id then EXT_ID_LEN else STD_ID_LEN) := by
    cases f.is_ext_id <;> simp [EXT_ID_LEN, STD_ID_LEN]
  have hL : (jsToHex f.id).length ≤ (if f.is_ext_id then EXT_ID_LEN else STD_ID_LEN) :=
    jsToHex_length_le _ f.id hw hid
  have hidlen : (List.replicate ((if f.is_ext_id then EXT_ID_LEN else STD_ID_LEN)
        - (jsToHex f.id).length) '0' ++ (jsToHex f.id).map Char.toUpper).length =
      (if f.is_ext_id then EXT_ID_LEN else STD_ID_LEN) := by
    simp only [List.length_append, List.length_replicate, List.length_map]
    omega
  rw [packFrame_line f hL hlen]
  cases hE : f.is_ext_id with
  | false =>
    rw [hE] at hidlen
    cases hR : f.is_remote with
    | false =>
      simp only [Bool.false_eq_true, if_false]
      exact parseFrame_structured lastCMD 't' false false _
        (by simpa using hidlen) f.id (jsHexNumber_pad _ f.id) f.data hlen
        hbytes (fun s => frameType_t lastCMD s)
    | true =>
      simp only [Bool.false_eq_true, if_false, if_true]
      exact parseFrame_structured lastCMD 'r' false true _
        (by simpa using hidlen) f.id (jsHexNumber_pad _ f.id) f.data hlen
        hbytes (fun s => frameType_r lastCMD s)
  | true =>
    rw [hE] at hidlen
    cases hR : f.is_remote with
    | false =>
      simp only [Bool.false_eq_true, if_false, if_true, toUpper_t]
      exact parseFrame_structured lastCMD 'T' true false _
        (by simpa using hidlen) f.id (jsHexNumber_pad _ f.id) f.data hlen
        hbytes (fun s => frameType_T lastCMD s)
    | true =>
      simp only [if_true, toUpper_r]
      exact parseFrame_structured lastCMD 'R' true true _
        (by simpa using hidlen) f.id (jsHexNumber_pad _ f.id) f.data hlen
        hbytes (fun s => frameType_R lastCMD s)

theorem parse_append_core (lastCMD : Option (List Char)) (c : Char) (e r : Bool)
    (rest extra : List Char) (g : Frame)
    (hty : ∀ s, frameType lastCMD s c = .ok (e, r))
    (hok : parseFrame lastCMD (c :: rest) = .ok g)
    (hwidth : 2 + (if e then EXT_ID_LEN else STD_ID_LEN) + 2 * g.dlc
        ≤ (c :: rest).length) :
    parseFrame lastCMD ((c :: rest) ++ extra) = .ok g := by
  have hrl : 1 + (if e = true then EXT_ID_LEN else STD_ID_LEN) + 2 * g.dlc
      ≤ rest.length := by
    simp only [List.length_cons] at hwidth
    omega
  rw [List.cons_append]
  simp only [parseFrame] at hok ⊢
  rw [hty] at hok ⊢
  simp only [] at hok ⊢
  simp only [List.drop_succ_cons, List.drop_zero] at hok ⊢
  have hwin1 : List.take (if e = true then EXT_ID_LEN else STD_ID_LEN)
      (rest ++ extra) =
      List.take (if e = true then EXT_ID_LEN else STD_ID_LEN) rest := by
    rw [List.take_append_of_le_length (by omega)]
  rw [hwin1]
  cases hv1 : jsHexNumber
      (List.take (if e = true then EXT_ID_LEN else STD_ID_LEN) rest) with
  | none =>
    rw [hv1] at hok
    simp at hok
  | some idv =>
    rw [hv1] at hok
    simp only [] at hok ⊢
    have hwin2 : List.take 1 (List.drop
        (1 + if e = true then EXT_ID_LEN else STD_ID_LEN) (c :: (rest ++ extra))) =
        List.take 1 (List.drop
        (1 + if e = true then EXT_ID_LEN else STD_ID_LEN) (c :: rest)) := by
      rw [Nat.add_comm 1 _, List.drop_succ_cons, List.drop_succ_cons,
        List.drop_append_of_le_length (by omega),
        List.take_append_of_le_length (by simp only [List.length_drop]; omega)]
    rw [hwin2]
    cases hv2 : jsDecNumber1 (List.take 1 (List.drop
        (1 + if e = true then EXT_ID_LEN else STD_ID_LEN) (c :: rest))) with
    | none =>
      rw [hv2] at hok
      simp at hok
    | some dv =>
      rw [hv2] at hok
      simp only [] at hok ⊢
      by_cases h8 : dv > 8
      · rw [if_pos h8] at hok
        simp at hok
      · rw [if_neg h8] at hok ⊢
        cases hrb : readBytes (c :: rest)
            (if e = true then EXT_ID_LEN else STD_ID_LEN) 0 dv with
        | error err =>
          rw [hrb] at hok
          simp at hok
        | ok data =>
          rw [hrb] at hok
          simp only [] at hok
          have hdv : g.dlc = dv := by
            injection hok with h
            rw [← h]
          have hcongr : readBytes (c :: (rest ++ extra))
              (if e = true then EXT_ID_LEN else STD_ID_LEN) 0 dv =
              readBytes (c :: rest)
              (if e = true then EXT_ID_LEN else STD_ID_LEN) 0 dv := by
            have hsplit : (c :: (rest ++ extra)) = (c :: rest) ++ extra := by simp
            rw [hsplit]
            apply readBytes_congr
            simp only [List.length_cons]
            omega
          rw [hcongr, hrb]
          simp only []
          exact hok

theorem frameType_ne_typeerror (lastCMD : Option (List Char)) (s : List Char)
    (c : Char) : frameType lastCMD s c ≠ .error .jsTypeError := by
  unfold frameType
  split_ifs <;> simp

/-- C1: extended-identifier round-trip is broken by the source: `_parseFrame`
assigns the parsed extended flag to the misspelled property `id_ext_id`,
leaving `is_ext_id` at the constructor default `false`.  Packing the
extended frame with id 1 and no data and parsing the result yields a frame
whose `is_ext_id` is `false` (with the stray `id_ext_id` property holding
`true`), so id, is_remote, dlc and data round-trip but `is_ext_id` does
not. -/
theorem c1_ext_id_not_roundtripped :
    parseFrame none (packFrame { id := 1,
                                 is_ext_id := true,
                                 is_remote := false,
                                 dlc := 0,
                                 data := [],
                                 timestamp := none,
                                 id_ext_id := none }).2 =
      .ok { id := 1,
            is_ext_id := false,
            is_remote := false,
            dlc := 0,
            data := [],
            timestamp := none,
            id_ext_id := some true } := by rfl

/-- C2 (amended): parsing a single BEL byte yields AdapterOpenFailed when
the last issued command was `"O\r"`; with any other last command (for
example a packed data-frame line) the BEL branch falls through with
undefined flags and the parse fails as MalformedIdentifier
(`"Invalid ID value"`), not as MalformedFrameType. -/
theorem c2_bel_handling (lastCMD : Option (List Char)) :
    parseFrame lastCMD [Char.ofNat 7] =
      (if lastCMD = some CMD_OPEN_BUS then .error .openFailed
       else .error .invalidId) := by
  by_cases h : lastCMD = some CMD_OPEN_BUS
  · rw [if_pos h]
    simp only [parseFrame]
    unfold frameType
    rw [if_neg (by decide), if_neg (by decide), if_neg (by decide),
      if_neg (by decide), if_pos (by decide), if_pos h]
  · rw [if_neg h]
    simp only [parseFrame]
    unfold frameType
    rw [if_neg (by decide), if_neg (by decide), if_neg (by decide),
      if_neg (by decide), if_pos (by decide), if_neg h]
    simp only []
    rfl

/-- C2 counterexample: parsing BEL when the last command was the packed
data frame `t0010\r` (a send of a standard data frame with id 1, no data)
yields the MalformedIdentifier error, not the MalformedFrameType error
the claim asserts. -/
theorem c2_counterexample :
    parseFrame (some (packFrame { id := 1,
                                  is_ext_id := false,
                                  is_remote := false,
                                  dlc := 0,
                                  data := [],
                                  timestamp := none,
                                  id_ext_id := none }).2) [Char.ofNat 7] =
      .error .invalidId ∧
      .error (ParseErr.badFrameType [Char.ofNat 7]) ≠
        (.error .invalidId : Except ParseErr Frame) := by
  constructor
  · rfl
  · simp

/-- C3 counterexample: the line `t123` ends right after the identifier
field, so the DLC character is absent, yet parsing succeeds with DLC 0
(JavaScript `Number("")` is `0`) instead of raising the MalformedDLC
error the claim asserts for an absent DLC. -/
theorem c3_counterexample :
    parseFrame none ['t', '1', '2', '3'] =
      .ok { id := 0x123,
            is_ext_id := false,
            is_remote := false,
            dlc := 0,
            data := [],
            timestamp := none,
            id_ext_id := some false } := by rfl

/-- C3 (amended): for a line beginning with t, r, T or R whose identifier
field parses as hex, the parse raises MalformedDLC exactly when the DLC
character is present and is neither a decimal digit of value at most 8
nor a whitespace character (a decimal digit 9 or above is rejected, as is
any non-digit non-whitespace character); an absent DLC character is
converted to 0 by JavaScript `Number("")` and accepted, as is a
whitespace DLC character. -/
theorem c3_dlc_rejection (lastCMD : Option (List Char)) (c : Char)
    (rest : List Char)
    (hc : c = 't' ∨ c = 'r' ∨ c = 'T' ∨ c = 'R')
    (hid : (jsHexNumber (List.take (if c = 'T' ∨ c = 'R' then EXT_ID_LEN
        else STD_ID_LEN) rest)).isSome) :
    (parseFrame lastCMD (c :: rest) = .error .invalidDLC ↔
      ∃ d, List.take 1 (List.drop (if c = 'T' ∨ c = 'R' then EXT_ID_LEN
          else STD_ID_LEN) rest) = [d] ∧
        jsWhitespace d = false ∧
        (decDigitVal d = none ∨ ∃ v, decDigitVal d = some v ∧ 8 < v)) := by
  have main : ∀ (e r : Bool), (∀ s, frameType lastCMD s c = .ok (e, r)) →
      (if c = 'T' ∨ c = 'R' then EXT_ID_LEN else STD_ID_LEN) =
        (if e = true then EXT_ID_LEN else STD_ID_LEN) →
      (parseFrame lastCMD (c :: rest) = .error .invalidDLC ↔
        ∃ d, List.take 1 (List.drop (if c = 'T' ∨ c = 'R' then EXT_ID_LEN
            else STD_ID_LEN) rest) = [d] ∧
          jsWhitespace d = false ∧
          (decDigitVal d = none ∨ ∃ v, decDigitVal d = some v ∧ 8 < v)) := by
    intro e r hty hwidth
    rw [hwidth] at hid ⊢
    simp only [parseFrame]
    rw [hty]
    simp only []
    obtain ⟨idv, hidv⟩ := Option.isSome_iff_exists.mp hid
    have hseq : List.take (if e = true then EXT_ID_LEN else STD_ID_LEN)
        (List.drop 1 (c :: rest)) =
        List.take (if e = true then EXT_ID_LEN else STD_ID_LEN) rest := rfl
    rw [hseq, hidv]
    simp only []
    have hdseq : List.take 1 (List.drop
        (1 + if e = true then EXT_ID_LEN else STD_ID_LEN) (c :: rest)) =
        List.take 1 (List.drop
        (if e = true then EXT_ID_LEN else STD_ID_LEN) rest) := by
      rw [Nat.add_comm 1 _, List.drop_succ_cons]
    rw [hdseq]
    cases hwin : List.take 1 (List.drop
        (if e = true then EXT_ID_LEN else STD_ID_LEN) rest) with
    | nil =>
      simp only [jsDecNumber1]
      constructor
      · intro hcon
        rw [if_neg (by omega)] at hcon
        rcases readBytes_cases 0 (c :: rest)
            (if e = true then EXT_ID_LEN else STD_ID_LEN) 0 with ⟨l, hl⟩ | ⟨j, hj⟩
        · rw [hl] at hcon; simp at hcon
        · rw [hj] at hcon; simp at hcon
      · rintro ⟨d, hd, -, -⟩
        simp at hd
    | cons d tl =>
      have htl : tl = [] := by
        have hlen := congrArg List.length hwin
        simp only [List.length_take, List.length_cons] at hlen
        have : tl.length = 0 := by omega
        exact List.eq_nil_of_length_eq_zero this
      subst htl
      by_cases hws : jsWhitespace d
      · have hjd : jsDecNumber1 [d] = some 0 := by
          simp only [jsDecNumber1, hws, if_true]
        rw [hjd]
        simp only []
        constructor
        · intro hcon
          rw [if_neg (by omega)] at hcon
          rcases readBytes_cases 0 (c :: rest)
              (if e = true then EXT_ID_LEN else STD_ID_LEN) 0 with ⟨l, hl⟩ | ⟨j, hj⟩
          · rw [hl] at hcon; simp at hcon
          · rw [hj] at hcon; simp at hcon
        · rintro ⟨d2, hd2, hwsd2, -⟩
          rw [List.cons.injEq] at hd2
          rcases hd2 with ⟨rfl, -⟩
          rw [hws] at hwsd2
          cases hwsd2
      · have hwsf : jsWhitespace d = false := by
          cases hx : jsWhitespace d
          · rfl
          · exact absurd hx hws
        cases hdv : decDigitVal d with
        | none =>
          have hjd : jsDecNumber1 [d] = none := by
            simp only [jsDecNumber1, hwsf, Bool.false_eq_true, if_false, hdv]
          rw [hjd]
          simp only []
          constructor
          · intro _
            exact ⟨d, rfl, hwsf, Or.inl hdv⟩
          · intro _
            trivial
        | some v =>
          have hjd : jsDecNumber1 [d] = some v := by
            simp only [jsDecNumber1, hwsf, Bool.false_eq_true, if_false, hdv]
          rw [hjd]
          simp only []
          by_cases hv8 : v > 8
          · rw [if_pos hv8]
            constructor
            · intro _
              exact ⟨d, rfl, hwsf, Or.inr ⟨v, hdv, hv8⟩⟩
            · intro _
              trivial
          · rw [if_neg hv8]
            constructor
            · intro hcon
              rcases readBytes_cases v (c :: rest)
                  (if e = true then EXT_ID_LEN else STD_ID_LEN) 0 with
                ⟨l, hl⟩ | ⟨j, hj⟩
              · rw [hl] at hcon; simp at hcon
              · rw [hj] at hcon; simp at hcon
            · rintro ⟨d2, hd2, -, hbad⟩
              rw [List.cons.injEq] at hd2
              rcases hd2 with ⟨rfl, -⟩
              rcases hbad with hnone | ⟨v2, hv2, h8v⟩
              · rw [hdv] at hnone; cases hnone
              · rw [hdv] at hv2
                injection hv2 with hvv
                omega
  rcases hc with rfl | rfl | rfl | rfl
  · exact main false false (fun s => frameType_t lastCMD s) (by decide)
  · exact main false true (fun s => frameType_r lastCMD s) (by decide)
  · exact main true false (fun s => frameType_T lastCMD s) (by decide)
  · exact main true true (fun s => frameType_R lastCMD s) (by decide)

/-- Witness for C3: the standard-frame line `t1239` has a well-formed
identifier field `123` and the DLC digit `9`, and parsing it raises the
MalformedDLC error. -/
theorem c3_dlc_rejection_witness :
    parseFrame none ['t', '1', '2', '3', '9'] = .error .invalidDLC :=
  (c3_dlc_rejection none 't' ['1', '2', '3', '9'] (Or.inl rfl)
    (by decide)).mpr ⟨'9', by decide, by decide, Or.inr ⟨9, by decide, by decide⟩⟩

/-- C4: standard-identifier round-trip.  For every frame with
`is_ext_id = false`, id at most 0x7FF, at most 8 data bytes each below
256, parsing the packed line yields a frame whose id, is_ext_id,
is_remote, dlc (= the data length) and data equal those of the input
(ignoring the timestamp). -/
theorem c4_roundtrip_std (lastCMD : Option (List Char)) (f : Frame)
    (hext : f.is_ext_id = false) (hidv : f.id ≤ 0x7FF)
    (hlen : f.data.length ≤ 8) (hbytes : ∀ b ∈ f.data, b < 256) :
    ∃ g, parseFrame lastCMD (packFrame f).2 = .ok g ∧
      g.id = f.id ∧ g.is_ext_id = f.is_ext_id ∧ g.is_remote = f.is_remote ∧
      g.dlc = f.data.length ∧ g.data = f.data := by
  have hid16 : f.id < 16 ^ (if f.is_ext_id then EXT_ID_LEN else STD_ID_LEN) := by
    rw [hext]
    have h3 : (16 : Nat) ^ STD_ID_LEN = 4096 := by norm_num [STD_ID_LEN]
    simp only [Bool.false_eq_true, if_false]
    omega
  exact ⟨_, parse_pack lastCMD f hid16 hlen hbytes, rfl, hext.symm, rfl, rfl, rfl⟩

/-- Witness for C4 at the concrete standard frame with id 0x123, data
bytes 50 and 255 and a stale dlc of 7. -/
theorem c4_roundtrip_std_witness :
    ∃ g, parseFrame none (packFrame { id := 0x123,
                                      is_ext_id := false,
                                      is_remote := false,
                                      dlc := 7,
                                      data := [50, 255],
                                      timestamp := none,
                                      id_ext_id := none }).2 = .ok g ∧
      g.id = 0x123 ∧ g.is_ext_id = false ∧ g.is_remote = false ∧
      g.dlc = 2 ∧ g.data = [50, 255] :=
  c4_roundtrip_std none
    { id := 0x123, is_ext_id := false, is_remote := false, dlc := 7,
      data := [50, 255], timestamp := none, id_ext_id := none }
    rfl (by decide) (by decide) (by decide)

/-- C5 counterexample: parsing the empty line does not fail with one of
the enumerated parse errors: `str[0]` is `undefined` and
`str[0].charCodeAt(0)` raises the runtime TypeError. -/
theorem c5_counterexample :
    parseFrame none [] = .error .jsTypeError ∧
      (ParseErr.jsTypeError = ParseErr.openFailed ∨
        (∃ s, ParseErr.jsTypeError = ParseErr.badFrameType s) ∨
        ParseErr.jsTypeError = ParseErr.invalidId ∨
        ParseErr.jsTypeError = ParseErr.invalidDLC ∨
        (∃ i, ParseErr.jsTypeError = ParseErr.invalidDataByte i)) = False := by
  constructor
  · rfl
  · simp

/-- C5 (amended): for every nonempty line, the parse either returns a
frame or fails with one of the errors thrown by `_parseFrame` itself
(never the runtime TypeError); the empty line is the single exception,
raising the TypeError instead. -/
theorem c5_parse_total (lastCMD : Option (List Char)) (str : List Char)
    (hne : str ≠ []) :
    (∃ f, parseFrame lastCMD str = .ok f) ∨
      (∃ e, parseFrame lastCMD str = .error e ∧ e ≠ .jsTypeError) := by
  cases str with
  | nil => exact absurd rfl hne
  | cons c rest =>
    simp only [parseFrame]
    cases hty : frameType lastCMD (c :: rest) c with
    | error e =>
      refine Or.inr ⟨e, rfl, ?_⟩
      intro hcon
      subst hcon
      exact frameType_ne_typeerror lastCMD (c :: rest) c hty
    | ok p =>
      obtain ⟨e1, r1⟩ := p
      simp only []
      cases hv1 : jsHexNumber (List.take
          (if e1 = true then EXT_ID_LEN else STD_ID_LEN)
          (List.drop 1 (c :: rest))) with
      | none => exact Or.inr ⟨.invalidId, rfl, by simp⟩
      | some idv =>
        simp only []
        cases hv2 : jsDecNumber1 (List.take 1 (List.drop
            (1 + if e1 = true then EXT_ID_LEN else STD_ID_LEN)
            (c :: rest))) with
        | none => exact Or.inr ⟨.invalidDLC, rfl, by simp⟩
        | some dv =>
          simp only []
          by_cases h8 : dv > 8
          · rw [if_pos h8]
            exact Or.inr ⟨.invalidDLC, rfl, by simp⟩
          · rw [if_neg h8]
            rcases readBytes_cases dv (c :: rest)
                (if e1 = true then EXT_ID_LEN else STD_ID_LEN) 0 with
              ⟨l, hl⟩ | ⟨j, hj⟩
            · rw [hl]
              exact Or.inl ⟨_, rfl⟩
            · rw [hj]
              exact Or.inr ⟨.invalidDataByte j, rfl, by simp⟩

/-- Witness for C5 at the nonempty line `t1`, which parses successfully. -/
theorem c5_parse_total_witness :
    (∃ f, parseFrame none ['t', '1'] = .ok f) ∨
      (∃ e, parseFrame none ['t', '1'] = .error e ∧ e ≠ .jsTypeError) :=
  c5_parse_total none ['t', '1'] (by decide)

/-- C6: for every frame — any id, any flags, any data list — the packed
line is at most 27 characters long and ends with the carriage-return
terminator. -/
theorem c6_pack_bound (f : Frame) :
    (packFrame f).2.length ≤ 27 ∧ (packFrame f).2.getLast? = some '\r' := by
  have hpos := jsToHex_length_pos f.id
  have hdlc : (if f.data.length > 8 then 8 else f.data.length) ≤ 8 := by
    split <;> omega
  have htlen : (f.data.take (if f.data.length > 8 then 8
      else f.data.length)).length =
      (if f.data.length > 8 then 8 else f.data.length) := by
    rw [List.length_take]
    split <;> omega
  have hjsl : jsToDec (if f.data.length > 8 then 8 else f.data.length) =
      [hexDigitChar (if f.data.length > 8 then 8 else f.data.length)] :=
    jsToDec_digit _ (by omega)
  have hsh : ∀ (c0 : Char) (A : List Char) (d : Char) (B : List Char),
      (c0 :: (A ++ (d :: (B ++ ['\r'])))).getLast? = some '\r' := by
    intro c0 A d B
    rw [show c0 :: (A ++ (d :: (B ++ ['\r']))) =
        (c0 :: (A ++ (d :: B))) ++ ['\r'] from by simp]
    rw [List.getLast?_concat]
  constructor
  · simp only [packFrame, hjsl]
    cases hE : f.is_ext_id with
    | false =>
      simp only [Bool.false_eq_true, if_false, List.length_append,
        List.length_cons, List.length_nil, encBytes_length, htlen,
        List.length_map, List.length_drop, List.length_replicate,
        STD_ID_LEN]
      omega
    | true =>
      simp only [if_true, List.length_append, List.length_cons,
        List.length_nil, encBytes_length, htlen, List.length_map,
        List.length_drop, List.length_replicate, EXT_ID_LEN]
      omega
  · simp only [packFrame, hjsl]
    simp only [List.cons_append, List.append_assoc, List.nil_append]
    exact hsh _ _ _ _

/-- C7: `_packFrame` overwrites the frame's dlc with `min(len(data), 8)`
and changes nothing else on the frame; the packed line encodes exactly
the first `min(len(data), 8)` data bytes (any later bytes are ignored);
and a second call on the mutated frame returns the same frame and the
identical line. -/
theorem c7_pack_effect (f : Frame) :
    (packFrame f).1 = { f with dlc := min f.data.length 8 } ∧
    packFrame ((packFrame f).1) = packFrame f ∧
    (packFrame f).2 = (packFrame { f with data := f.data.take 8 }).2 := by
  have hmin : (if f.data.length > 8 then 8 else f.data.length) =
      min f.data.length 8 := by
    simp only [min_def]
    split_ifs <;> omega
  refine ⟨?_, ?_, ?_⟩
  · have ha : (packFrame f).1 =
        { f with dlc := if f.data.length > 8 then 8 else f.data.length } := rfl
    rw [ha, hmin]
  · rfl
  · simp only [packFrame, List.length_take, List.take_take]
    have h1 : (if 8 ⊓ f.data.length > 8 then 8 else 8 ⊓ f.data.length) =
        (if f.data.length > 8 then 8 else f.data.length) := by
      simp only [min_def]
      split_ifs <;> omega
    rw [h1]
    have h2 : (if f.data.length > 8 then 8 else f.data.length) ⊓ 8 =
        (if f.data.length > 8 then 8 else f.data.length) := by
      simp only [min_def]
      split_ifs <;> omega
    rw [h2]

/-- C8: the line-received callback invokes the application callback
exactly once, with the parsed frame stamped with the current time, when
the parse succeeds; when the parse throws, the error is logged, nothing
is delivered, and the callback is not invoked. -/
theorem c8_recv_boundary (lastCMD : Option (List Char)) (now : Nat)
    (line : List Char) :
    (∀ f, parseFrame lastCMD line = .ok f →
      serialRecvCallback lastCMD now line =
        ([{ f with timestamp := some now }], [])) ∧
    (∀ e, parseFrame lastCMD line = .error e →
      serialRecvCallback lastCMD now line = ([], [e])) := by
  constructor
  · intro f hf
    simp only [serialRecvCallback, hf]
  · intro e he
    simp only [serialRecvCallback, he]

/-- Witness for C8: receiving the line `t1230` at time 42 delivers
exactly one frame, stamped with timestamp 42, and logs nothing. -/
theorem c8_recv_boundary_witness :
    serialRecvCallback none 42 ['t', '1', '2', '3', '0'] =
      ([{ id := 0x123,
          is_ext_id := false,
          is_remote := false,
          dlc := 0,
          data := [],
          timestamp := some 42,
          id_ext_id := some false }], []) :=
  (c8_recv_boundary none 42 ['t', '1', '2', '3', '0']).1
    { id := 0x123, is_ext_id := false, is_remote := false, dlc := 0,
      data := [], timestamp := none, id_ext_id := some false } (by rfl)

/-- C9: calling `send` without a connection throws the
`"Not connected to serial device"` error, performs no transport write,
leaves the whole session state — including `_lastCMD` — unchanged, and
does not touch the frame. -/
theorem c9_send_not_ready (st : SessionState) (f : Frame)
    (hconn : st.conn = none) :
    send st f = { state := st, frame := f, writes := [],
                  err := some NOT_CONNECTED } := by
  simp only [send, hconn]

/-- Witness for C9: a freshly constructed session (no connection) rejects
a send of the example frame with id 0x81. -/
theorem c9_send_not_ready_witness :
    send { dev_str := [], speed := 5, conn := none, recv_count := 0,
           recv_str := [], lastCMD := none }
        { id := 0x81, is_ext_id := false, is_remote := false, dlc := 0,
          data := [50, 0, 133, 100, 17, 3, 0, 0], timestamp := none,
          id_ext_id := none } =
      { state := { dev_str := [], speed := 5, conn := none, recv_count := 0,
                   recv_str := [], lastCMD := none },
        frame := { id := 0x81, is_ext_id := false, is_remote := false,
                   dlc := 0, data := [50, 0, 133, 100, 17, 3, 0, 0],
                   timestamp := none, id_ext_id := none },
        writes := [], err := some NOT_CONNECTED } :=
  c9_send_not_ready _ _ rfl

/-- C10 counterexample: the truncated line `t1` parses successfully (the
identifier field is the single character `1`, the DLC is absent and
treated as 0), and appending the character `2` also parses successfully
but changes the identifier from 1 to 0x12 — so extra trailing characters
are not always ignored. -/
theorem c10_counterexample :
    parseFrame none ['t', '1'] =
      .ok { id := 1,
            is_ext_id := false,
            is_remote := false,
            dlc := 0,
            data := [],
            timestamp := none,
            id_ext_id := some false } ∧
    parseFrame none (['t', '1'] ++ ['2']) =
      .ok { id := 0x12,
            is_ext_id := false,
            is_remote := false,
            dlc := 0,
            data := [],
            timestamp := none,
            id_ext_id := some false } ∧
    (1 : Nat) ≠ 0x12 := by
  refine ⟨by rfl, by rfl, by decide⟩

/-- C10 (amended): trailing input beyond the fixed-width prefix is
ignored provided the line already contains that whole prefix: if a line
starting with t, r, T or R parses to a frame `g` and the line is at least
`2 + idlen + 2 * g.dlc` characters long (1 type char, `idlen` identifier
chars, 1 DLC char, 2 chars per data byte), then appending any extra
characters yields the same frame and no error.  (The length proviso is
forced by the counterexample: a line truncated inside a field can parse
successfully, and appended characters then change the parsed fields.) -/
theorem c10_trailing_ignored (lastCMD : Option (List Char))
    (line extra : List Char) (c : Char) (g : Frame)
    (hhead : line.head? = some c)
    (hc : c = 't' ∨ c = 'r' ∨ c = 'T' ∨ c = 'R')
    (hok : parseFrame lastCMD line = .ok g)
    (hwidth : 2 + (if c = 'T' ∨ c = 'R' then EXT_ID_LEN else STD_ID_LEN)
        + 2 * g.dlc ≤ line.length) :
    parseFrame lastCMD (line ++ extra) = .ok g := by
  obtain ⟨rest, rfl⟩ : ∃ rest, line = c :: rest := by
    cases line with
    | nil => simp at hhead
    | cons a l =>
      simp only [List.head?_cons, Option.some.injEq] at hhead
      exact ⟨l, by rw [hhead]⟩
  rcases hc with rfl | rfl | rfl | rfl
  · exact parse_append_core lastCMD 't' false false rest extra g
      (fun s => frameType_t lastCMD s) hok (by simpa using hwidth)
  · exact parse_append_core lastCMD 'r' false true rest extra g
      (fun s => frameType_r lastCMD s) hok (by simpa using hwidth)
  · exact parse_append_core lastCMD 'T' true false rest extra g
      (fun s => frameType_T lastCMD s) hok (by simpa using hwidth)
  · exact parse_append_core lastCMD 'R' true true rest extra g
      (fun s => frameType_R lastCMD s) hok (by simpa using hwidth)

/-- Witness for C10: the full-width line `t0010` (standard id 1, DLC 0)
still parses to the same frame after appending `XYZ`. -/
theorem c10_trailing_ignored_witness :
    parseFrame none (['t', '0', '0', '1', '0'] ++ ['X', 'Y', 'Z']) =
      .ok { id := 1,
            is_ext_id := false,
            is_remote := false,
            dlc := 0,
            data := [],
            timestamp := none,
            id_ext_id := some false } :=
  c10_trailing_ignored none ['t', '0', '0', '1', '0'] ['X', 'Y', 'Z'] 't'
    { id := 1, is_ext_id := false, is_remote := false, dlc := 0,
      data := [], timestamp := none, id_ext_id := some false }
    rfl (Or.inl rfl) (by rfl) (by decide)

end canbus
